import Mathlib

/-!
# Verification of the order-state propagation pipeline

Shallow embedding of the core of the `indexer` repository:

* `src/packages/indexer/src/common/redis.ts` — the coordination primitive
  (distributed locks and the single-use dedup marker), modelled as a pure
  key-value store with expiry timestamps and explicit time.
* `src/unnamed/part_001` — the OpenSea websocket ingestion stage
  (`isDuplicateEvent`, `parseProtocolData`, `handleEvent`, the event
  callback with the bid-events batch buffer).
* `src/packages/indexer/src/api/endpoints/activities/get-user-activity/v6.ts`
  (second document: the `order-updates-by-id` queue) — the order mutation
  consumer worker and its `addToQueue` entry point.

Randomness (UUIDs) and wall-clock time are passed as explicit parameters;
redis commands become pure functions on a `Store`; database and queue
effects become fields of an explicit effects record.
-/

namespace Indexer

/-! ## Redis key-value store with expiry (common/redis.ts)

A store maps keys to entries; an entry carries the stored value and an
optional absolute expiry timestamp (`none` = no expiry, as for
`redis.set(name, id, "NX")` without `EX`). Time is an integer timestamp in
seconds. A key is *live* at time `t` when it is present and not expired. -/

structure StoreEntry where
  value : String
  expiry : Option Int
deriving DecidableEq, Repr

def Store : Type := String → Option StoreEntry

def Store.empty : Store := fun _ => none

def Store.set (s : Store) (key : String) (e : StoreEntry) : Store :=
  fun k => if k = key then some e else s k

def Store.del (s : Store) (key : String) : Store :=
  fun k => if k = key then none else s k

/-- A key is live at time `t`: present with no expiry, or expiry in the
strict future. -/
def entryLive (t : Int) : Option StoreEntry → Bool
  | none => false
  | some e =>
    match e.expiry with
    | none => true
    | some ex => decide (t < ex)

/-- Redis `SET key value EX ttl NX` at time `t`: succeeds (returns `"OK"`,
modelled as `true`) iff the key is not live; on success the entry expires
`ttl` seconds later. -/
def redisSetNxEx (key value : String) (ttl : Int) (t : Int) (s : Store) :
    Bool × Store :=
  if entryLive t (s key) then (false, s)
  else (true, s.set key ⟨value, some (t + ttl)⟩)

/-- Redis `SET key value NX` (no expiry) at time `t`. -/
def redisSetNx (key value : String) (t : Int) (s : Store) : Bool × Store :=
  if entryLive t (s key) then (false, s)
  else (true, s.set key ⟨value, none⟩)

/-- Redis `SET key value EX ttl XX` at time `t`: succeeds iff the key is live;
on success both the value and the expiry are overwritten. -/
def redisSetXxEx (key value : String) (ttl : Int) (t : Int) (s : Store) :
    Bool × Store :=
  if entryLive t (s key) then (true, s.set key ⟨value, some (t + ttl)⟩)
  else (false, s)

/-- Source `acquireLock(name, expirationInSeconds = 0)`. The randomly generated
UUID is passed explicitly as `uuid`. JavaScript's `if (expirationInSeconds)`
is the `ttl ≠ 0` test. Returns whether the set succeeded (`acquired === "OK"`)
together with the new store. -/
def acquireLock (name : String) (ttl : Int) (uuid : String) (t : Int)
    (s : Store) : Bool × Store :=
  if ttl ≠ 0 then redisSetNxEx name uuid ttl t s
  else redisSetNx name uuid t s

/-- Source `extendLock(name, expirationInSeconds)`: a fresh `uuid` is generated and
`SET name uuid EX ttl XX` is issued. -/
def extendLock (name : String) (ttl : Int) (uuid : String) (t : Int)
    (s : Store) : Bool × Store :=
  redisSetXxEx name uuid ttl t s

/-- Source `releaseLock(name)`: unconditional delete. -/
def releaseLock (name : String) (s : Store) : Store :=
  s.del name

/-- A sequence of `acquireLock` calls on the same name, each with its own
(random) uuid and call time, threaded through the store; returns the list
of results in call order. -/
def acquireMany (name : String) (ttl : Int) (calls : List (String × Int))
    (s : Store) : List Bool × Store :=
  match calls with
  | [] => ([], s)
  | (uuid, t) :: rest =>
    let r := acquireLock name ttl uuid t s
    let rs := acquireMany name ttl rest r.2
    (r.1 :: rs.1, rs.2)

/-! ## OpenSea websocket ingestion (src/unnamed/part_001)

Stream events, the dedup primitive `isDuplicateEvent`, protocol-data
decoding `parseProtocolData`, and the order-event callback with its
in-memory bid-events batch. -/

inductive EventType where
  | itemListed
  | itemReceivedBid
  | collectionOffer
  | traitOffer
  | itemMetadataUpdated
deriving DecidableEq, Repr

def EventType.toStr : EventType → String
  | .itemListed => "item_listed"
  | .itemReceivedBid => "item_received_bid"
  | .collectionOffer => "collection_offer"
  | .traitOffer => "trait_offer"
  | .itemMetadataUpdated => "item_metadata_updated"

/-- The order parameters extracted from an event payload by the per-kind
handlers (`handleItemListedEvent` etc., external to the given sources). -/
structure OpenseaOrderParams where
  hash : String
deriving DecidableEq, Repr

/-- The raw `protocol_data` carried by a payload. Reading its `parameters`
fields and constructing an SDK order object can throw on malformed data;
`wellFormed = false` marks exactly the payloads for which that whole block
throws (the exception is caught inside `parseProtocolData`). -/
structure ProtocolDataRaw where
  params : String
  wellFormed : Bool
deriving DecidableEq, Repr

/-- One message of the push stream: `event_type`, `sent_at` and the fields
of `payload` that the ingestion stage reads. `handlerResult` is what the
per-kind handler (code outside the given sources) extracts from the
payload. Modelled from the spec: the handler builds order parameters from
the payload, or rejects it. -/
structure StreamEvent where
  eventType : EventType
  sentAt : String
  orderHash : String
  nftId : String
  payloadSentAt : String
  protocolData : Option ProtocolDataRaw
  protocolAddress : String
  handlerResult : Option OpenseaOrderParams
deriving DecidableEq, Repr

/-- Modelled from the spec: `generateHash` (in `websockets/opensea/utils`,
outside the given sources) computes a stable hash of its components; we
model it as an injective encoding of the component list. -/
def generateHash (parts : List String) : String :=
  String.intercalate "|" parts

/-- Source `getEventHash`: metadata events hash `(event_type, item.nft_id,
payload.sent_at)`; every other kind hashes `(event_type, order_hash)`. -/
def getEventHash (event : StreamEvent) : String :=
  match event.eventType with
  | .itemMetadataUpdated =>
    generateHash [event.eventType.toStr, event.nftId, event.payloadSentAt]
  | _ => generateHash [event.eventType.toStr, event.orderHash]

/-- The TTL of the dedup marker: `60 * 5` seconds. -/
def dedupTtl : Int := 60 * 5

/-- Source `isDuplicateEvent`: issues `SET opensea-websocket-event:<hash> <now> EX 300 NX`;
the event is a duplicate iff the set returned `null` (the key was live). -/
def isDuplicateEvent (event : StreamEvent) (t : Int) (s : Store) :
    Bool × Store :=
  let r := redisSetNxEx ("opensea-websocket-event:" ++ getEventHash event)
    (toString t) dedupTtl t s
  (!r.1, r.2)

/-- The dedup key `isDuplicateEvent` uses for an event. -/
def dedupKey (event : StreamEvent) : String :=
  "opensea-websocket-event:" ++ getEventHash event

/-- Repeated `isDuplicateEvent` checks of the same event at the given
times, threading the store; returns the results in call order. -/
def dedupTrace (event : StreamEvent) (ts : List Int) (s : Store) :
    List Bool × Store :=
  match ts with
  | [] => ([], s)
  | t :: rest =>
    let r := isDuplicateEvent event t s
    let rs := dedupTrace event rest r.2
    (r.1 :: rs.1, rs.2)

/-- Source `handleEvent`: dispatch on the event type; the four order-bearing kinds
run their handler, everything else yields `null`. -/
def handleEvent (type : EventType) (event : StreamEvent) :
    Option OpenseaOrderParams :=
  match type with
  | .itemListed => event.handlerResult
  | .itemReceivedBid => event.handlerResult
  | .collectionOffer => event.handlerResult
  | .traitOffer => event.handlerResult
  | _ => none

inductive ProtocolKind where
  | seaport
  | seaportV14
  | seaportV15
deriving DecidableEq, Repr

structure ProtocolData where
  kind : ProtocolKind
  orderParams : String
deriving DecidableEq, Repr

/-- Modelled from the spec: the fixed per-chain address table of the three
supported order-format variants (`Sdk.SeaportV1x.Addresses.Exchange`,
outside the given sources); the three addresses of a chain are distinct. -/
def seaportV11Exchange (chainId : Nat) : String :=
  "seaport-v1.1-exchange-" ++ toString chainId

def seaportV14Exchange (chainId : Nat) : String :=
  "seaport-v1.4-exchange-" ++ toString chainId

def seaportV15Exchange (chainId : Nat) : String :=
  "seaport-v1.5-exchange-" ++ toString chainId

/-- Source `parseProtocolData`: missing `protocol_data` yields `undefined`
(logged); a payload whose order-components block throws yields `undefined`
(the exception is caught and logged); otherwise the protocol address
selects one of the three supported decoder variants, and an address
matching none yields `undefined`. -/
def parseProtocolData (chainId : Nat) (event : StreamEvent) :
    Option ProtocolData :=
  match event.protocolData with
  | none => none
  | some pd =>
    if !pd.wellFormed then none
    else if event.protocolAddress = seaportV11Exchange chainId then
      some ⟨.seaport, pd.params⟩
    else if event.protocolAddress = seaportV14Exchange chainId then
      some ⟨.seaportV14, pd.params⟩
    else if event.protocolAddress = seaportV15Exchange chainId then
      some ⟨.seaportV15, pd.params⟩
    else none

/-- The `GenericOrderInfo` record pushed to the orderbook queues. -/
structure GenericOrderInfo where
  kind : ProtocolKind
  orderParams : String
  originatedAt : String
  isOpenSea : Bool
  openSeaOrderParams : OpenseaOrderParams
  validateBidValue : Bool
  ingestMethod : String
deriving DecidableEq, Repr

/-- Source `maxEventsSize`: 200 on mainnet (`chainId = 1`), 1 elsewhere. -/
def maxEventsSize (chainId : Nat) : Nat :=
  if chainId = 1 then 200 else 1

/-- One append to the in-memory bid-events batch: push the event, and if
the buffer has reached `max` entries, splice out the whole buffer as one
bulk submission. Returns the new buffer and the optional submission. -/
def pushBidEvent (max : Nat) (e : GenericOrderInfo)
    (buffer : List GenericOrderInfo) :
    List GenericOrderInfo × Option (List GenericOrderInfo) :=
  let buffer := buffer ++ [e]
  if max ≤ buffer.length then ([], some buffer) else (buffer, none)

/-- Appending a whole sequence of bid events; collects the bulk
submissions in order. -/
def processBidEvents (max : Nat) (es : List GenericOrderInfo)
    (buffer : List GenericOrderInfo) :
    List GenericOrderInfo × List (List GenericOrderInfo) :=
  match es with
  | [] => (buffer, [])
  | e :: rest =>
    let r := pushBidEvent max e buffer
    let rs := processBidEvents max rest r.1
    (rs.1, (r.2.toList) ++ rs.2)

/-- State of the ingestion stage: the redis store and the in-memory
bid-events buffer. -/
structure IngestState where
  store : Store
  bidsEvents : List GenericOrderInfo

/-- What one invocation of the order-event callback did. -/
structure IngestOutcome where
  state : IngestState
  /-- The callback got past the dedup check, i.e. `handleEvent` /
  `parseProtocolData` ran on this delivery. -/
  reachedDecode : Bool
  /-- Submissions to the OpenSea-listings queue (item-listed events). -/
  listingSubmissions : List GenericOrderInfo
  /-- Bulk submissions of flushed bid batches to the orders queue. -/
  bulkSubmissions : List (List GenericOrderInfo)

/-- The `client.onEvents` callback for one delivered order event at time
`t`: dedup first, then handler, then protocol-data decoding, then routing
(listings immediately, bid-like events through the batch buffer). -/
def onOrderEvent (chainId : Nat) (event : StreamEvent) (t : Int)
    (st : IngestState) : IngestOutcome :=
  let d := isDuplicateEvent event t st.store
  let st := ⟨d.2, st.bidsEvents⟩
  if d.1 then ⟨st, false, [], []⟩
  else
    match handleEvent event.eventType event with
    | none => ⟨st, true, [], []⟩
    | some params =>
      match parseProtocolData chainId event with
      | none => ⟨st, true, [], []⟩
      | some pd =>
        let orderInfo : GenericOrderInfo :=
          { kind := pd.kind
            orderParams := pd.orderParams
            originatedAt := event.sentAt
            isOpenSea := true
            openSeaOrderParams := params
            validateBidValue := true
            ingestMethod := "websocket" }
        if event.eventType = .itemListed then
          ⟨st, true, [orderInfo], []⟩
        else
          let r := pushBidEvent (maxEventsSize chainId) orderInfo st.bidsEvents
          ⟨⟨st.store, r.1⟩, true, [], r.2.toList⟩

/-! ## Order mutation consumer (`order-updates-by-id` queue)

The worker body and the `addToQueue` entry point, from the second document
of `get-user-activity/v6.ts`. Database reads become an explicit lookup
function, queue/sink writes become fields of an `Effects` record, and
`Date.now()` becomes an explicit `nowTs` parameter. -/

inductive Side where
  | sell
  | buy
deriving DecidableEq, Repr

def Side.toStr : Side → String
  | .sell => "sell"
  | .buy => "buy"

inductive FillabilityStatus where
  | fillable
  | filled
  | cancelled
  | expired
  | noBalance
deriving DecidableEq, Repr

inductive ApprovalStatus where
  | approved
  | noApproval
deriving DecidableEq, Repr

/-- The trigger record of an `OrderInfo` job. Trigger kinds are the strings
the worker compares against (`"new-order"`, `"reprice"`, `"cancel"`, ...). -/
structure Trigger where
  kind : String
  txHash : Option String
  txTimestamp : Option Int
  logIndex : Option Nat
  batchIndex : Option Nat
  blockHash : Option String
deriving DecidableEq, Repr

/-- The job payload (`OrderInfo` in the source). -/
structure OrderInfo where
  context : String
  trigger : Trigger
  id : Option String
  tokenSetId : Option String
  side : Option Side
  ingestMethod : Option String
deriving DecidableEq, Repr

/-- The raw `valid_between` column as the worker sees it: a string that
`JSON.parse` either turns into a range whose first component is the
validity start, or on which it throws. -/
inductive ValidBetweenRaw where
  | wellFormed (validFrom : Int)
  | malformed
deriving DecidableEq, Repr

/-- The read `JSON.parse(order.validBetween)[0]`, with the throw made explicit. -/
def parseValidFrom : ValidBetweenRaw → Option Int
  | .wellFormed validFrom => some validFrom
  | .malformed => none

/-- The row loaded by the worker's `SELECT` (orders joined with
`token_sets_tokens`). Timestamps are integer seconds. -/
structure Order where
  id : String
  side : Side
  tokenSetId : String
  sourceIdInt : Nat
  validBetween : Option ValidBetweenRaw
  quantityRemaining : Nat
  nonce : Int
  maker : String
  price : Int
  value : Int
  fillabilityStatus : FillabilityStatus
  approvalStatus : ApprovalStatus
  kind : String
  dynamic : Bool
  currency : String
  currencyPrice : Option Int
  normalizedValue : Option Int
  currencyNormalizedValue : Option Int
  rawData : String
  originatedAt : Option Int
  createdAt : Int
  contract : String
  tokenId : String
deriving DecidableEq, Repr

inductive OrderEventStatus where
  | active
  | inactive
  | filled
  | cancelled
  | expired
deriving DecidableEq, Repr

/-- The `CASE` expression of the `order_events` insert, in source order:
fillability `filled`/`cancelled`/`expired` map to themselves, fillability
`no-balance` to `inactive`, then approval `no-approval` to `inactive`,
else `active`. -/
def orderEventStatus (f : FillabilityStatus) (a : ApprovalStatus) :
    OrderEventStatus :=
  match f with
  | .filled => .filled
  | .cancelled => .cancelled
  | .expired => .expired
  | .noBalance => .inactive
  | .fillable =>
    match a with
    | .noApproval => .inactive
    | .approved => .active

/-- The status table as the specification words it: `filled` if
fillability=`filled`; `cancelled` if fillability=`cancelled`; `expired`
if fillability=`expired`; `inactive` if fillability=`no-balance` or
approval=`no-approval`; otherwise `active`. Stated from the spec, to be
compared with `orderEventStatus`. -/
def specOrderEventStatus (f : FillabilityStatus) (a : ApprovalStatus) :
    OrderEventStatus :=
  if f = .filled then .filled
  else if f = .cancelled then .cancelled
  else if f = .expired then .expired
  else if f = .noBalance ∨ a = .noApproval then .inactive
  else .active

/-- JavaScript `x || null` on an optional string: the empty string is
falsy and collapses to `null`. -/
def jsOrNullStr : Option String → Option String
  | some "" => none
  | some s => some s
  | none => none

/-- JavaScript `x || d` on an optional number: `0` is falsy. -/
def jsOrInt (x : Option Int) (d : Int) : Int :=
  match x with
  | some v => if v = 0 then d else v
  | none => d

/-- JavaScript `x || null` on an optional number: `0` is falsy and
collapses to `null`. -/
def jsOrNullInt : Option Int → Option Int
  | some v => if v = 0 then none else some v
  | none => none

/-- A top-bid recompute job (`token-set-updates/top-bid-queue`). -/
structure TopBidInfo where
  tokenSetId : String
  kind : String
  txHash : Option String
  txTimestamp : Option Int
deriving DecidableEq, Repr

/-- A floor-ask recompute job (`token-updates` floor / normalized-floor). -/
structure FloorAskInfo where
  kind : String
  tokenSetId : String
  txHash : Option String
  txTimestamp : Option Int
deriving DecidableEq, Repr

/-- An nft-balance floor-ask recompute job. -/
structure NftBalanceFloorAskInfo where
  contract : String
  tokenId : String
  owner : String
deriving DecidableEq, Repr

/-- The `order_events` ledger row the worker inserts. -/
structure OrderEventRow where
  kind : String
  status : OrderEventStatus
  contract : String
  tokenId : String
  orderId : String
  orderSourceIdInt : Nat
  orderValidBetween : Option ValidBetweenRaw
  orderQuantityRemaining : Nat
  orderNonce : Int
  maker : String
  price : Int
  txHash : Option String
  txTimestamp : Option Int
  orderKind : String
  orderTokenSetId : String
  orderDynamic : Bool
  orderCurrency : String
  orderCurrencyPrice : Option Int
  orderNormalizedValue : Option Int
  orderCurrencyNormalizedValue : Option Int
  orderRawData : String
deriving DecidableEq, Repr

/-- An entry appended to the bid-events list sink. -/
structure BidEventEntry where
  order : Order
  trigger : Trigger
deriving DecidableEq, Repr

inductive ActivityEventKind where
  | sellOrderCancelled
  | buyOrderCancelled
  | newSellOrder
  | newBuyOrder
deriving DecidableEq, Repr

structure ActivityEventData where
  orderId : String
  orderSourceIdInt : Nat
  contract : String
  tokenId : String
  maker : String
  price : Int
  amount : Nat
  transactionHash : Option String
  logIndex : Option Nat
  batchIndex : Option Nat
  /-- Only the cancellation event data carries the trigger's block hash. -/
  blockHash : Option String
  timestamp : Int
deriving DecidableEq, Repr

structure ActivityEventInfo where
  kind : ActivityEventKind
  data : ActivityEventData
deriving DecidableEq, Repr

inductive WebsocketEventKind where
  | sellOrder
  | buyOrder
deriving DecidableEq, Repr

structure WebsocketEvent where
  triggerKind : String
  orderId : String
  eventKind : WebsocketEventKind
deriving DecidableEq, Repr

inductive OrderType where
  | listing
  | tokenOffer
  | attributeOffer
  | collectionOffer
deriving DecidableEq, Repr

/-- The order-latency metric record logged for new orders. -/
structure LatencyLog where
  latency : Int
  sourceIdInt : Nat
  orderId : String
  orderKind : String
  orderType : OrderType
  ingestMethod : String
deriving DecidableEq, Repr

/-- Everything one worker execution writes to queues, storage and sinks. -/
structure Effects where
  topBidJobs : List TopBidInfo
  floorAskJobs : List FloorAskInfo
  normalizedFloorAskJobs : List FloorAskInfo
  orderEvents : List OrderEventRow
  nftBalanceFloorAskJobs : List NftBalanceFloorAskInfo
  bidEvents : List BidEventEntry
  activityEvents : List ActivityEventInfo
  websocketEvents : List WebsocketEvent
  latencyLog : Option LatencyLog
deriving DecidableEq, Repr

def Effects.empty : Effects :=
  ⟨[], [], [], [], [], [], [], [], none⟩

/-- The order-type classification of the latency metric: `listing` for
sell orders, else by the token-set id prefix (`token` / `list` /
otherwise a collection offer). -/
def orderTypeOf (side : Option Side) (tokenSetId : Option String) :
    OrderType :=
  if side = some .sell then .listing
  else if (tokenSetId.map (·.startsWith "token")).getD false then .tokenOffer
  else if (tokenSetId.map (·.startsWith "list")).getD false then
    .attributeOffer
  else .collectionOffer

/-- The latency-observability step (the inner `try` of the worker): logs
iff `order.validBetween` parses and the order start (its `originatedAt`
when set, else the parsed validity start) does not exceed `createdAt`;
any parse failure is swallowed and produces no log. -/
def latencyStep (o : Order) (side : Option Side)
    (tokenSetId : Option String) (ingestMethod : Option String)
    (vb : ValidBetweenRaw) : Option LatencyLog :=
  match parseValidFrom vb with
  | none => none
  | some validFrom =>
    let orderStart := o.originatedAt.getD validFrom
    let orderCreated := o.createdAt
    if orderStart ≤ orderCreated then
      some
        { latency := orderCreated - orderStart
          sourceIdInt := o.sourceIdInt
          orderId := o.id
          orderKind := o.kind
          orderType := orderTypeOf side tokenSetId
          ingestMethod := ingestMethod.getD "rest" }
    else none

/-- The `order_events` insert built from the trigger and the loaded order.
The `price` column receives `order.value`. -/
def mkOrderEventRow (trigger : Trigger) (o : Order) : OrderEventRow :=
  { kind := trigger.kind
    status := orderEventStatus o.fillabilityStatus o.approvalStatus
    contract := o.contract
    tokenId := o.tokenId
    orderId := o.id
    orderSourceIdInt := o.sourceIdInt
    orderValidBetween := o.validBetween
    orderQuantityRemaining := o.quantityRemaining
    orderNonce := o.nonce
    maker := o.maker
    price := o.value
    txHash := jsOrNullStr trigger.txHash
    txTimestamp := jsOrNullInt trigger.txTimestamp
    orderKind := o.kind
    orderTokenSetId := o.tokenSetId
    orderDynamic := o.dynamic
    orderCurrency := o.currency
    orderCurrencyPrice := o.currencyPrice
    orderNormalizedValue := o.normalizedValue
    orderCurrencyNormalizedValue := o.currencyNormalizedValue
    orderRawData := o.rawData }

/-- The shared activity-event payload; `blockHash` is included only by the
cancellation branch. `timestamp` is `trigger.txTimestamp ||
Math.floor(Date.now() / 1000)`. -/
def mkActivityEventData (trigger : Trigger) (o : Order)
    (blockHash : Option String) (nowTs : Int) : ActivityEventData :=
  { orderId := o.id
    orderSourceIdInt := o.sourceIdInt
    contract := o.contract
    tokenId := o.tokenId
    maker := o.maker
    price := o.price
    amount := o.quantityRemaining
    transactionHash := trigger.txHash
    logIndex := trigger.logIndex
    batchIndex := trigger.batchIndex
    blockHash := blockHash
    timestamp := jsOrInt trigger.txTimestamp nowTs }

/-- The activity-event gating of the worker: a `cancel` trigger emits a
cancellation event keyed by side unconditionally; a `new-order`/`reprice`
trigger emits a creation event keyed by side only for a fillable and
approved order; everything else emits nothing. -/
def activityEventFor (trigger : Trigger) (o : Order) (nowTs : Int) :
    Option ActivityEventInfo :=
  if trigger.kind = "cancel" then
    let data := mkActivityEventData trigger o trigger.blockHash nowTs
    match o.side with
    | .sell => some ⟨.sellOrderCancelled, data⟩
    | .buy => some ⟨.buyOrderCancelled, data⟩
  else if (trigger.kind = "new-order" ∨ trigger.kind = "reprice") ∧
      o.fillabilityStatus = .fillable ∧ o.approvalStatus = .approved then
    let data := mkActivityEventData trigger o none nowTs
    match o.side with
    | .sell => some ⟨.newSellOrder, data⟩
    | .buy => some ⟨.newBuyOrder, data⟩
  else none

/-- One execution of the `order-updates-by-id` worker on a job, against
the database lookup `db` (order id → row) at wall-clock second `nowTs`.
Mirrors the worker body statement by statement: the order is loaded when
an id is present and then *overwrites* `side`/`tokenSetId` (leaving them
unset when the row is gone); the `if (side && tokenSetId)` gate treats an
empty token-set id as falsy, as JavaScript does. -/
def processJob (job : OrderInfo) (db : String → Option Order)
    (nowTs : Int) : Effects :=
  let order : Option Order :=
    match job.id with
    | some oid => db oid
    | none => none
  let side : Option Side :=
    if job.id.isSome then order.map (·.side) else job.side
  let tokenSetId : Option String :=
    if job.id.isSome then order.map (·.tokenSetId) else job.tokenSetId
  let gated : Effects :=
    match side, tokenSetId with
    | some s, some ts =>
      if ts = "" then Effects.empty
      else
        let topBidJobs :=
          if s = .buy then
            if ts.startsWith "token" then
              -- single-token top-bid path: commented out in the source
              []
            else
              [({ tokenSetId := ts
                  kind := job.trigger.kind
                  txHash := jsOrNullStr job.trigger.txHash
                  txTimestamp := jsOrNullInt job.trigger.txTimestamp } :
                TopBidInfo)]
          else []
        let floorAskJobs :=
          if s = .sell then
            [({ kind := job.trigger.kind
                tokenSetId := ts
                txHash := jsOrNullStr job.trigger.txHash
                txTimestamp := jsOrNullInt job.trigger.txTimestamp } :
              FloorAskInfo)]
          else []
        match order with
        | none =>
          { Effects.empty with
            topBidJobs := topBidJobs
            floorAskJobs := floorAskJobs
            normalizedFloorAskJobs := floorAskJobs }
        | some o =>
          let orderEvents :=
            if o.side = .sell then [mkOrderEventRow job.trigger o] else []
          let nftBalanceFloorAskJobs :=
            if o.side = .sell then
              [({ contract := o.contract
                  tokenId := o.tokenId
                  owner := o.maker } : NftBalanceFloorAskInfo)]
            else []
          let bidEvents :=
            if o.side = .buy then [({ order := o, trigger := job.trigger } :
              BidEventEntry)] else []
          { topBidJobs := topBidJobs
            floorAskJobs := floorAskJobs
            normalizedFloorAskJobs := floorAskJobs
            orderEvents := orderEvents
            nftBalanceFloorAskJobs := nftBalanceFloorAskJobs
            bidEvents := bidEvents
            activityEvents := (activityEventFor job.trigger o nowTs).toList
            websocketEvents :=
              [({ triggerKind := job.trigger.kind
                  orderId := o.id
                  eventKind :=
                    if o.side = .sell then .sellOrder else .buyOrder } :
                WebsocketEvent)]
            latencyLog := none }
    | _, _ => Effects.empty
  let latencyLog : Option LatencyLog :=
    match order with
    | some o =>
      match o.validBetween with
      | some vb =>
        if job.trigger.kind = "new-order" then
          latencyStep o side tokenSetId job.ingestMethod vb
        else none
      | none => none
    | none => none
  { gated with latencyLog := latencyLog }

/-! ### `addToQueue` and the context-keyed queue -/

/-- The all-zero order-id sentinel (`HashZero`). -/
def HashZero : String :=
  "0x0000000000000000000000000000000000000000000000000000000000000000"

/-- A job as it sits in the durable queue. -/
structure QueuedJob where
  name : String
  jobId : String
  data : OrderInfo
deriving DecidableEq, Repr

/-- The fallback job name `tokenSetId + "-" + side` (JavaScript
stringifies a missing field as `"undefined"`). -/
def jobNameFallback (oi : OrderInfo) : String :=
  oi.tokenSetId.getD "undefined" ++ "-" ++
    ((oi.side.map Side.toStr).getD "undefined")

/-- The `name` field given to `addBulk`: the order id when present and
truthy, else the token-set-and-side fallback. -/
def jobName (oi : OrderInfo) : String :=
  match oi.id with
  | some i => if i = "" then jobNameFallback oi else i
  | none => jobNameFallback oi

/-- The queued job built from an order info: its job id is the trigger
context. -/
def mkQueuedJob (oi : OrderInfo) : QueuedJob :=
  { name := jobName oi, jobId := oi.context, data := oi }

/-- Modelled from the spec: the external durable queue deduplicates by job
id — adding a job whose id is already held is ignored, so a context is
only processed once as long as the queue still holds past jobs with the
same context. -/
def enqueueDedup (j : QueuedJob) (q : List QueuedJob) : List QueuedJob :=
  if q.any (fun j0 => j0.jobId = j.jobId) then q else q ++ [j]

/-- Source `queue.addBulk`: enqueue the jobs in order, each one deduplicated
against the queue state it meets. -/
def addBulk (js : List QueuedJob) (q : List QueuedJob) : List QueuedJob :=
  js.foldl (fun acc j => enqueueDedup j acc) q

/-- Source `addToQueue`: drop the order infos whose id is the all-zero sentinel,
then bulk-enqueue the rest with the trigger context as the job id. -/
def addToQueue (orderInfos : List OrderInfo) (q : List QueuedJob) :
    List QueuedJob :=
  addBulk ((orderInfos.filter (fun oi => oi.id ≠ some HashZero)).map
    mkQueuedJob) q

/-! ### Concrete sample values (used by the closed witness statements) -/

/-- A sample decoded bid order info. -/
def sampleBid : GenericOrderInfo :=
  { kind := .seaport
    orderParams := "p1"
    originatedAt := "t1"
    isOpenSea := true
    openSeaOrderParams := ⟨"h1"⟩
    validateBidValue := true
    ingestMethod := "websocket" }

/-- A sample stream event whose payload carries no `protocol_data`, so its
decoding fails after the dedup marker is taken. -/
def sampleUndecodableEvent : StreamEvent :=
  { eventType := .itemReceivedBid
    sentAt := "2023-01-01T00:00:00Z"
    orderHash := "0xabc"
    nftId := "n"
    payloadSentAt := "ps"
    protocolData := none
    protocolAddress := "0xdead"
    handlerResult := some ⟨"0xabc"⟩ }

/-- A sample chain trigger with the given kind. -/
def sampleTrigger (kind : String) : Trigger :=
  { kind := kind
    txHash := some "0xtx"
    txTimestamp := some 1700000000
    logIndex := some 3
    batchIndex := some 1
    blockHash := some "0xblock" }

/-- A sample fillable, approved sell order. -/
def sampleOrder : Order :=
  { id := "0xorder1"
    side := .sell
    tokenSetId := "token:0xc:1"
    sourceIdInt := 7
    validBetween := some (.wellFormed 100)
    quantityRemaining := 1
    nonce := 0
    maker := "0xmaker"
    price := 1000
    value := 950
    fillabilityStatus := .fillable
    approvalStatus := .approved
    kind := "seaport-v1.5"
    dynamic := false
    currency := "0xcurr"
    currencyPrice := none
    normalizedValue := none
    currencyNormalizedValue := none
    rawData := "raw-data"
    originatedAt := none
    createdAt := 200
    contract := "0xc"
    tokenId := "1" }

/-- A sample sell order whose validity window opens only after the row was
created (valid from 2000, created at 1000). -/
def lateStartOrder : Order :=
  { sampleOrder with
    id := "0xorder2"
    validBetween := some (.wellFormed 2000)
    createdAt := 1000 }

/-- A one-order database holding `sampleOrder`. -/
def sampleDb : String → Option Order :=
  fun oid => if oid = "0xorder1" then some sampleOrder else none

/-- A one-order database holding `lateStartOrder`. -/
def lateStartDb : String → Option Order :=
  fun oid => if oid = "0xorder2" then some lateStartOrder else none

/-- A sample job for the given order id and trigger kind. -/
def sampleJob (oid : String) (kind : String) : OrderInfo :=
  { context := "ctx-1"
    trigger := sampleTrigger kind
    id := some oid
    tokenSetId := none
    side := none
    ingestMethod := some "websocket" }

/-- A sample order info with context `"c1"`. -/
def dupContextInfo1 : OrderInfo :=
  { context := "c1"
    trigger := sampleTrigger "new-order"
    id := some "0xaaa"
    tokenSetId := none
    side := none
    ingestMethod := none }

/-- A second submission of context `"c1"` (different payload, same
idempotency key). -/
def dupContextInfo2 : OrderInfo :=
  { dupContextInfo1 with
    id := none
    tokenSetId := some "ts"
    side := some .buy }

/-- An order info whose id is the all-zero sentinel. -/
def sentinelInfo : OrderInfo :=
  { context := "c2"
    trigger := sampleTrigger "cancel"
    id := some HashZero
    tokenSetId := none
    side := none
    ingestMethod := none }

/-! ## Helper lemmas -/

theorem Store.set_same (s : Store) (key : String) (e : StoreEntry) :
    s.set key e key = some e := by
  simp [Store.set]

theorem acquireLock_of_live (name : String) (ttl : Int) (uuid : String)
    (t : Int) (s : Store) (h : entryLive t (s name) = true) :
    acquireLock name ttl uuid t s = (false, s) := by
  unfold acquireLock redisSetNxEx redisSetNx
  by_cases httl : ttl ≠ 0 <;> simp [httl, h]

theorem acquireLock_of_dead (name : String) (ttl : Int) (uuid : String)
    (t : Int) (s : Store) (h : entryLive t (s name) = false) :
    acquireLock name ttl uuid t s =
      (true, s.set name ⟨uuid, if ttl = 0 then none else some (t + ttl)⟩) := by
  unfold acquireLock redisSetNxEx redisSetNx
  by_cases httl : ttl = 0 <;> simp [httl, h]

theorem acquireMany_all_fail (name : String) (ttl : Int)
    (calls : List (String × Int)) (s : Store)
    (h : ∀ p ∈ calls, entryLive p.2 (s name) = true) :
    acquireMany name ttl calls s = (calls.map (fun _ => false), s) := by
  induction calls with
  | nil => rfl
  | cons p rest ih =>
    obtain ⟨uuid, t⟩ := p
    have h1 : entryLive t (s name) = true := h (uuid, t) (List.mem_cons_self _ _)
    have h2 : ∀ p ∈ rest, entryLive p.2 (s name) = true :=
      fun p hp => h p (List.mem_cons_of_mem _ hp)
    simp [acquireMany, acquireLock_of_live name ttl uuid t s h1, ih h2]

theorem isDuplicateEvent_of_live (event : StreamEvent) (t : Int) (s : Store)
    (h : entryLive t (s (dedupKey event)) = true) :
    isDuplicateEvent event t s = (true, s) := by
  unfold isDuplicateEvent redisSetNxEx
  unfold dedupKey at h
  simp [h]

theorem isDuplicateEvent_of_dead (event : StreamEvent) (t : Int) (s : Store)
    (h : entryLive t (s (dedupKey event)) = false) :
    isDuplicateEvent event t s =
      (false, s.set (dedupKey event) ⟨toString t, some (t + dedupTtl)⟩) := by
  unfold isDuplicateEvent redisSetNxEx
  unfold dedupKey at h ⊢
  simp [h]

theorem dedupTrace_all_dup (event : StreamEvent) (ts : List Int) (s : Store)
    (h : ∀ t ∈ ts, entryLive t (s (dedupKey event)) = true) :
    dedupTrace event ts s = (ts.map (fun _ => true), s) := by
  induction ts with
  | nil => rfl
  | cons t rest ih =>
    have h1 : entryLive t (s (dedupKey event)) = true :=
      h t (List.mem_cons_self _ _)
    have h2 : ∀ t ∈ rest, entryLive t (s (dedupKey event)) = true :=
      fun t ht => h t (List.mem_cons_of_mem _ ht)
    simp [dedupTrace, isDuplicateEvent_of_live event t s h1, ih h2]

/-! ## Claim theorems: coordination primitive -/

/-- C5: `acquireLock` atomically creates the lock key only if it is absent
(with expiry `t + ttl` when a nonzero ttl is given, no expiry otherwise)
and returns `true` iff this caller obtained ownership; among the `N`
acquire calls on one name (the first finding the key not live, the rest
arriving while neither a release nor the expiry has intervened), exactly
the first returns `true`. -/
theorem acquireLock_mutual_exclusion (name : String) (ttl : Int)
    (u0 : String) (t0 : Int) (rest : List (String × Int)) (s : Store)
    (h0 : entryLive t0 (s name) = false)
    (hrest : ∀ p ∈ rest, t0 ≤ p.2 ∧ (ttl = 0 ∨ p.2 < t0 + ttl)) :
    (acquireMany name ttl ((u0, t0) :: rest) s).1 =
      true :: rest.map (fun _ => false) ∧
    (acquireMany name ttl ((u0, t0) :: rest) s).1.count true = 1 ∧
    (acquireMany name ttl ((u0, t0) :: rest) s).2 name =
      some ⟨u0, if ttl = 0 then none else some (t0 + ttl)⟩ := by
  have hfirst := acquireLock_of_dead name ttl u0 t0 s h0
  set s1 := s.set name ⟨u0, if ttl = 0 then none else some (t0 + ttl)⟩
    with hs1
  have hlive : ∀ p ∈ rest, entryLive p.2 (s1 name) = true := by
    intro p hp
    rw [hs1, Store.set_same]
    by_cases httl : ttl = 0
    · simp [entryLive, httl]
    · rcases (hrest p hp).2 with h | h
      · exact absurd h httl
      · simp [entryLive, httl, h]
  have hrest' := acquireMany_all_fail name ttl rest s1 hlive
  refine ⟨?_, ?_, ?_⟩
  · simp [acquireMany, hfirst, hrest']
  · simp [acquireMany, hfirst, hrest', List.count_cons]
    simp [List.count_eq_zero, List.mem_map]
  · simp [acquireMany, hfirst, hrest', hs1, Store.set_same]

/-- C5 witness: three concurrent acquisitions of `"x"` with a 10-second
ttl; only the first succeeds. -/
theorem acquireLock_mutual_exclusion_witness :
    entryLive 0 (Store.empty "x") = false ∧
    (∀ p ∈ [("b", (3 : Int)), ("c", 9)],
      (0 : Int) ≤ p.2 ∧ ((10 : Int) = 0 ∨ p.2 < 0 + 10)) ∧
    ((acquireMany "x" 10 [("a", 0), ("b", 3), ("c", 9)] Store.empty).1 =
        true :: [("b", (3 : Int)), ("c", 9)].map (fun _ => false) ∧
      (acquireMany "x" 10 [("a", 0), ("b", 3), ("c", 9)]
        Store.empty).1.count true = 1 ∧
      (acquireMany "x" 10 [("a", 0), ("b", 3), ("c", 9)] Store.empty).2 "x" =
        some ⟨"a", if (10 : Int) = 0 then none else some (0 + 10)⟩) :=
  ⟨rfl, by decide,
    acquireLock_mutual_exclusion "x" 10 "a" 0 [("b", 3), ("c", 9)]
      Store.empty rfl (by decide)⟩

/-- C10: a successful `extendLock` on a live lock overwrites the stored
holder token with the freshly generated uuid (whatever token `v0` the
acquirer wrote) and resets the expiry; it succeeds exactly when the key is
live, independently of the stored token. -/
theorem extendLock_overwrites_holder (s : Store) (name v0 : String)
    (ex0 : Option Int) (ttl : Int) (newId : String) (t : Int)
    (hentry : s name = some ⟨v0, ex0⟩)
    (hlive : entryLive t (s name) = true) :
    (extendLock name ttl newId t s).1 = true ∧
    (extendLock name ttl newId t s).2 name =
      some ⟨newId, some (t + ttl)⟩ := by
  unfold extendLock redisSetXxEx
  simp [hlive, Store.set_same]

/-- C10 witness: extending a lock held with token `"tok0"` replaces the
stored token by the fresh `"tok1"`. -/
theorem extendLock_overwrites_holder_witness :
    (Store.empty.set "lock" ⟨"tok0", some 10⟩) "lock" =
      some ⟨"tok0", some 10⟩ ∧
    entryLive 5 ((Store.empty.set "lock" ⟨"tok0", some 10⟩) "lock") = true ∧
    ((extendLock "lock" 3 "tok1" 5
        (Store.empty.set "lock" ⟨"tok0", some 10⟩)).1 = true ∧
      (extendLock "lock" 3 "tok1" 5
        (Store.empty.set "lock" ⟨"tok0", some 10⟩)).2 "lock" =
        some ⟨"tok1", some (5 + 3)⟩) :=
  ⟨by decide, by decide,
    extendLock_overwrites_holder (Store.empty.set "lock" ⟨"tok0", some 10⟩)
      "lock" "tok0" (some 10) 3 "tok1" 5 (by decide) (by decide)⟩

/-- C3: the ingestion dedup primitive — `isDuplicateEvent` is the negation
of the spec's `markIfNewEvent` — reports a hash as new (`false`) exactly
the first time it is seen, as a duplicate (`true`) on every subsequent
occurrence within the 5-minute TTL window (leaving the store untouched,
so the window is not extended), and as new again once the TTL has
elapsed. -/
theorem isDuplicateEvent_dedup_window (event : StreamEvent) (t0 : Int)
    (ts : List Int) (s : Store)
    (h0 : entryLive t0 (s (dedupKey event)) = false)
    (hts : ∀ t ∈ ts, t0 ≤ t ∧ t < t0 + dedupTtl) :
    (dedupTrace event (t0 :: ts) s).1 = false :: ts.map (fun _ => true) ∧
    (dedupTrace event (t0 :: ts) s).2 =
      s.set (dedupKey event) ⟨toString t0, some (t0 + dedupTtl)⟩ ∧
    (∀ t2, t0 + dedupTtl ≤ t2 →
      (isDuplicateEvent event t2 (dedupTrace event (t0 :: ts) s).2).1 =
        false) := by
  have hfirst := isDuplicateEvent_of_dead event t0 s h0
  set s1 := s.set (dedupKey event) ⟨toString t0, some (t0 + dedupTtl)⟩
    with hs1
  have hlive : ∀ t ∈ ts, entryLive t (s1 (dedupKey event)) = true := by
    intro t ht
    rw [hs1, Store.set_same]
    simp [entryLive, (hts t ht).2]
  have hdups := dedupTrace_all_dup event ts s1 hlive
  refine ⟨?_, ?_, ?_⟩
  · simp [dedupTrace, hfirst, hdups]
  · simp [dedupTrace, hfirst, hdups]
  · intro t2 ht2
    have hstate : (dedupTrace event (t0 :: ts) s).2 = s1 := by
      simp [dedupTrace, hfirst, hdups]
    rw [hstate]
    have hdead : entryLive t2 (s1 (dedupKey event)) = false := by
      rw [hs1, Store.set_same]
      simp [entryLive]
      omega
    simp [isDuplicateEvent_of_dead event t2 s1 hdead]

/-- C3 witness: a fresh hash at time 0 is new, duplicates at 10 and 299
are suppressed, and at 300 (TTL elapsed) the hash is new again. -/
theorem isDuplicateEvent_dedup_window_witness :
    entryLive 0 (Store.empty (dedupKey
      ⟨.itemListed, "s", "oh", "n", "ps", none, "addr", none⟩)) = false ∧
    (∀ t ∈ [(10 : Int), 299], (0 : Int) ≤ t ∧ t < 0 + dedupTtl) ∧
    ((dedupTrace ⟨.itemListed, "s", "oh", "n", "ps", none, "addr", none⟩
        [0, 10, 299] Store.empty).1 =
        false :: [(10 : Int), 299].map (fun _ => true) ∧
      (dedupTrace ⟨.itemListed, "s", "oh", "n", "ps", none, "addr", none⟩
        [0, 10, 299] Store.empty).2 =
        Store.empty.set (dedupKey
          ⟨.itemListed, "s", "oh", "n", "ps", none, "addr", none⟩)
          ⟨toString (0 : Int), some (0 + dedupTtl)⟩ ∧
      (∀ t2, (0 : Int) + dedupTtl ≤ t2 →
        (isDuplicateEvent ⟨.itemListed, "s", "oh", "n", "ps", none, "addr",
          none⟩ t2 (dedupTrace
            ⟨.itemListed, "s", "oh", "n", "ps", none, "addr", none⟩
            [0, 10, 299] Store.empty).2).1 = false)) :=
  ⟨rfl, by decide,
    isDuplicateEvent_dedup_window
      ⟨.itemListed, "s", "oh", "n", "ps", none, "addr", none⟩ 0 [10, 299]
      Store.empty rfl (by decide)⟩

/-! ## Claim theorems: ingestion batching -/

theorem processBidEvents_no_flush (max : Nat)
    (es buffer : List GenericOrderInfo)
    (h : buffer.length + es.length < max) :
    processBidEvents max es buffer = (buffer ++ es, []) := by
  induction es generalizing buffer with
  | nil => simp [processBidEvents]
  | cons e rest ih =>
    have h1 : ¬ max ≤ (buffer ++ [e]).length := by
      simp only [List.length_append, List.length_cons] at h ⊢
      simp
      omega
    simp only [processBidEvents, pushBidEvent, h1, if_false]
    rw [ih (buffer ++ [e]) (by simp only [List.length_append,
      List.length_cons] at h ⊢; simp; omega)]
    simp

theorem processBidEvents_flush (max : Nat)
    (es buffer : List GenericOrderInfo) (hne : es ≠ [])
    (h : buffer.length + es.length = max) :
    processBidEvents max es buffer = ([], [buffer ++ es]) := by
  induction es generalizing buffer with
  | nil => cases hne rfl
  | cons e rest ih =>
    by_cases hr : rest = []
    · subst hr
      have h1 : max ≤ buffer.length + 1 := by
        simp only [List.length_cons, List.length_nil] at h
        omega
      simp [processBidEvents, pushBidEvent, h1]
    · have hrl : 0 < rest.length := List.length_pos.mpr hr
      have h1 : ¬ max ≤ buffer.length + 1 := by
        simp only [List.length_cons] at h
        omega
      have h2 : (buffer ++ [e]).length + rest.length = max := by
        simp only [List.length_append, List.length_cons, List.length_nil]
        simp only [List.length_cons] at h
        omega
      have h1' : ¬ max ≤ (buffer ++ [e]).length := by
        simp only [List.length_append, List.length_cons, List.length_nil]
        omega
      simp only [processBidEvents, pushBidEvent]
      rw [if_neg h1']
      rw [ih (buffer ++ [e]) hr h2]
      simp

/-- C4: with the batch threshold `max` and an empty post-flush buffer,
appending up to `max - 1` bid events produces no bulk submission and
leaves them buffered, while the append that reaches the threshold
produces exactly one bulk submission carrying all buffered events and
clears the buffer. -/
theorem bid_batch_flush (max : Nat) (es : List GenericOrderInfo)
    (hmax : 1 ≤ max) (hlen : es.length = max) :
    (∀ k, k < max → processBidEvents max (es.take k) [] = (es.take k, [])) ∧
    processBidEvents max es [] = ([], [es]) := by
  constructor
  · intro k hk
    apply processBidEvents_no_flush
    simp only [List.length_nil, List.length_take, hlen]
    omega
  · have hne : es ≠ [] := by
      intro hnil
      rw [hnil] at hlen
      simp at hlen
      omega
    have h := processBidEvents_flush max es [] hne (by simpa using hlen)
    simpa using h

/-- C4 witness: on a low-traffic chain (`maxEventsSize = 1`) the very
first bid event is flushed as a one-element bulk submission. -/
theorem bid_batch_flush_witness :
    1 ≤ maxEventsSize 0 ∧
    [sampleBid].length = maxEventsSize 0 ∧
    ((∀ k, k < maxEventsSize 0 →
      processBidEvents (maxEventsSize 0) ([sampleBid].take k) [] =
        ([sampleBid].take k, [])) ∧
      processBidEvents (maxEventsSize 0) [sampleBid] [] =
        ([], [[sampleBid]])) :=
  ⟨by decide, by decide,
    bid_batch_flush (maxEventsSize 0) [sampleBid] (by decide) (by decide)⟩

theorem onOrderEvent_store (cid : Nat) (e : StreamEvent) (t : Int)
    (st : IngestState) :
    (onOrderEvent cid e t st).state.store = (isDuplicateEvent e t st.store).2 := by
  unfold onOrderEvent
  dsimp only
  split
  · rfl
  · split
    · rfl
    · split
      · rfl
      · split
        · rfl
        · rfl

theorem onOrderEvent_reachedDecode (cid : Nat) (e : StreamEvent) (t : Int)
    (st : IngestState) :
    (onOrderEvent cid e t st).reachedDecode =
      !(isDuplicateEvent e t st.store).1 := by
  unfold onOrderEvent
  dsimp only
  split
  · simp_all
  · split
    · simp_all
    · split
      · simp_all
      · split
        · simp_all
        · simp_all

theorem onOrderEvent_of_dup (cid : Nat) (e : StreamEvent) (t : Int)
    (st : IngestState) (h : (isDuplicateEvent e t st.store).1 = true) :
    onOrderEvent cid e t st =
      ⟨⟨(isDuplicateEvent e t st.store).2, st.bidsEvents⟩, false, [], []⟩ := by
  unfold onOrderEvent
  simp only [h, if_true]

/-- C9: the dedup marker is taken at the dedup check, before any decoding:
whatever the event's payload (in particular when its protocol data is
missing, its address matches no decoder variant, or decoding throws), a
first delivery consumes the once-per-TTL slot, and a redelivery of the
same event within the window is discarded at the dedup step — the store
and buffer are untouched, nothing is submitted, and the decode stage is
not reached again. -/
theorem dedup_slot_consumed_before_decode (cid : Nat) (e : StreamEvent)
    (t0 : Int) (st : IngestState)
    (h0 : entryLive t0 (st.store (dedupKey e)) = false) :
    (onOrderEvent cid e t0 st).state.store (dedupKey e) =
      some ⟨toString t0, some (t0 + dedupTtl)⟩ ∧
    (onOrderEvent cid e t0 st).reachedDecode = true ∧
    (∀ t1, t0 ≤ t1 → t1 < t0 + dedupTtl →
      onOrderEvent cid e t1 (onOrderEvent cid e t0 st).state =
        ⟨(onOrderEvent cid e t0 st).state, false, [], []⟩) := by
  have hdead := isDuplicateEvent_of_dead e t0 st.store h0
  have hstore : (onOrderEvent cid e t0 st).state.store =
      st.store.set (dedupKey e) ⟨toString t0, some (t0 + dedupTtl)⟩ := by
    rw [onOrderEvent_store, hdead]
  refine ⟨?_, ?_, ?_⟩
  · rw [hstore, Store.set_same]
  · rw [onOrderEvent_reachedDecode, hdead]
    rfl
  · intro t1 ht1a ht1b
    have hlive : entryLive t1
        ((onOrderEvent cid e t0 st).state.store (dedupKey e)) = true := by
      rw [hstore, Store.set_same]
      simp [entryLive, ht1b]
    have hdup := isDuplicateEvent_of_live e t1
      (onOrderEvent cid e t0 st).state.store hlive
    have hstep := onOrderEvent_of_dup cid e t1 (onOrderEvent cid e t0 st).state
      (by rw [hdup])
    rw [hdup] at hstep
    exact hstep

/-- C9 witness: an event with missing protocol data still consumes its
dedup slot at time 0, and a redelivery is discarded at the dedup step. -/
theorem dedup_slot_consumed_before_decode_witness :
    entryLive 0 (IngestState.mk Store.empty []
      |>.store (dedupKey sampleUndecodableEvent)) = false ∧
    ((onOrderEvent 1 sampleUndecodableEvent 0
        ⟨Store.empty, []⟩).state.store (dedupKey sampleUndecodableEvent) =
      some ⟨toString (0 : Int), some (0 + dedupTtl)⟩ ∧
    (onOrderEvent 1 sampleUndecodableEvent 0
        ⟨Store.empty, []⟩).reachedDecode = true ∧
    (∀ t1, (0 : Int) ≤ t1 → t1 < 0 + dedupTtl →
      onOrderEvent 1 sampleUndecodableEvent t1
          (onOrderEvent 1 sampleUndecodableEvent 0 ⟨Store.empty, []⟩).state =
        ⟨(onOrderEvent 1 sampleUndecodableEvent 0
          ⟨Store.empty, []⟩).state, false, [], []⟩)) :=
  ⟨rfl, dedup_slot_consumed_before_decode 1 sampleUndecodableEvent 0
    ⟨Store.empty, []⟩ rfl⟩

/-! ## Worker characterization lemmas -/

theorem processJob_order_missing (job : OrderInfo)
    (db : String → Option Order) (nowTs : Int) (oid : String)
    (hid : job.id = some oid) (hdb : db oid = none) :
    processJob job db nowTs = Effects.empty := by
  unfold processJob
  simp [hid, hdb, Effects.empty]

theorem processJob_no_inputs (job : OrderInfo) (db : String → Option Order)
    (nowTs : Int) (hid : job.id = none)
    (h : job.side = none ∨ job.tokenSetId = none ∨ job.tokenSetId = some "") :
    processJob job db nowTs = Effects.empty := by
  unfold processJob
  rcases h with h | h | h
  · simp [hid, h, Effects.empty]
  · cases hjs : job.side <;> simp [hid, h, hjs, Effects.empty]
  · cases hjs : job.side <;> simp [hid, h, hjs, Effects.empty]

theorem processJob_loaded_sell (job : OrderInfo)
    (db : String → Option Order) (nowTs : Int) (oid : String) (o : Order)
    (hid : job.id = some oid) (hdb : db oid = some o)
    (hside : o.side = .sell) (hts : o.tokenSetId ≠ "") :
    processJob job db nowTs =
      { topBidJobs := []
        floorAskJobs := [⟨job.trigger.kind, o.tokenSetId,
          jsOrNullStr job.trigger.txHash, jsOrNullInt job.trigger.txTimestamp⟩]
        normalizedFloorAskJobs := [⟨job.trigger.kind, o.tokenSetId,
          jsOrNullStr job.trigger.txHash, jsOrNullInt job.trigger.txTimestamp⟩]
        orderEvents := [mkOrderEventRow job.trigger o]
        nftBalanceFloorAskJobs := [⟨o.contract, o.tokenId, o.maker⟩]
        bidEvents := []
        activityEvents := (activityEventFor job.trigger o nowTs).toList
        websocketEvents := [⟨job.trigger.kind, o.id, .sellOrder⟩]
        latencyLog :=
          match o.validBetween with
          | some vb =>
            if job.trigger.kind = "new-order" then
              latencyStep o (some .sell) (some o.tokenSetId)
                job.ingestMethod vb
            else none
          | none => none } := by
  unfold processJob
  simp [hid, hdb, hside, hts]

theorem processJob_loaded_buy (job : OrderInfo)
    (db : String → Option Order) (nowTs : Int) (oid : String) (o : Order)
    (hid : job.id = some oid) (hdb : db oid = some o)
    (hside : o.side = .buy) (hts : o.tokenSetId ≠ "") :
    processJob job db nowTs =
      { topBidJobs :=
          if o.tokenSetId.startsWith "token" then []
          else [⟨o.tokenSetId, job.trigger.kind,
            jsOrNullStr job.trigger.txHash, jsOrNullInt job.trigger.txTimestamp⟩]
        floorAskJobs := []
        normalizedFloorAskJobs := []
        orderEvents := []
        nftBalanceFloorAskJobs := []
        bidEvents := [⟨o, job.trigger⟩]
        activityEvents := (activityEventFor job.trigger o nowTs).toList
        websocketEvents := [⟨job.trigger.kind, o.id, .buyOrder⟩]
        latencyLog :=
          match o.validBetween with
          | some vb =>
            if job.trigger.kind = "new-order" then
              latencyStep o (some .buy) (some o.tokenSetId)
                job.ingestMethod vb
            else none
          | none => none } := by
  unfold processJob
  by_cases htok : o.tokenSetId.startsWith "token" <;>
    simp [hid, hdb, hside, hts, htok]

theorem processJob_activity (job : OrderInfo) (db : String → Option Order)
    (nowTs : Int) (oid : String) (o : Order)
    (hid : job.id = some oid) (hdb : db oid = some o)
    (hts : o.tokenSetId ≠ "") :
    (processJob job db nowTs).activityEvents =
      (activityEventFor job.trigger o nowTs).toList := by
  cases hside : o.side
  · rw [processJob_loaded_sell job db nowTs oid o hid hdb hside hts]
  · rw [processJob_loaded_buy job db nowTs oid o hid hdb hside hts]

theorem processJob_latencyLog (job : OrderInfo) (db : String → Option Order)
    (nowTs : Int) (oid : String) (o : Order)
    (hid : job.id = some oid) (hdb : db oid = some o) :
    (processJob job db nowTs).latencyLog =
      (match o.validBetween with
      | some vb =>
        if job.trigger.kind = "new-order" then
          latencyStep o (some o.side) (some o.tokenSetId) job.ingestMethod vb
        else none
      | none => none) := by
  unfold processJob
  simp [hid, hdb]

/-! ## Claim theorems: order mutation consumer -/

/-- C2: for a processed job whose loaded order has side `sell`, exactly one
order-events ledger row is appended and its status is computed exactly per
the spec's table — fillability `filled`/`cancelled`/`expired` map to
themselves, `no-balance` or `no-approval` give `inactive`, otherwise
`active`; in particular (no-balance, approved) ⇒ inactive and
(fillable, approved) ⇒ active. -/
theorem orderEvent_status_derivation (job : OrderInfo)
    (db : String → Option Order) (nowTs : Int) (oid : String) (o : Order)
    (hid : job.id = some oid) (hdb : db oid = some o)
    (hside : o.side = .sell) (hts : o.tokenSetId ≠ "") :
    (processJob job db nowTs).orderEvents = [mkOrderEventRow job.trigger o] ∧
    (mkOrderEventRow job.trigger o).status =
      orderEventStatus o.fillabilityStatus o.approvalStatus ∧
    (∀ f a, orderEventStatus f a = specOrderEventStatus f a) ∧
    orderEventStatus .noBalance .approved = .inactive ∧
    orderEventStatus .fillable .approved = .active := by
  refine ⟨?_, rfl, fun f a => by cases f <;> cases a <;> rfl, rfl, rfl⟩
  rw [processJob_loaded_sell job db nowTs oid o hid hdb hside hts]

/-- C2 witness: a new-order job on the sample fillable approved sell order
appends one ledger row whose status is `active`. -/
theorem orderEvent_status_derivation_witness :
    (sampleJob "0xorder1" "new-order").id = some "0xorder1" ∧
    sampleDb "0xorder1" = some sampleOrder ∧
    sampleOrder.side = .sell ∧
    sampleOrder.tokenSetId ≠ "" ∧
    ((processJob (sampleJob "0xorder1" "new-order") sampleDb 123).orderEvents =
        [mkOrderEventRow (sampleJob "0xorder1" "new-order").trigger
          sampleOrder] ∧
      (mkOrderEventRow (sampleJob "0xorder1" "new-order").trigger
        sampleOrder).status =
        orderEventStatus sampleOrder.fillabilityStatus
          sampleOrder.approvalStatus ∧
      (∀ f a, orderEventStatus f a = specOrderEventStatus f a) ∧
      orderEventStatus .noBalance .approved = .inactive ∧
      orderEventStatus .fillable .approved = .active) :=
  ⟨rfl, by decide, rfl, by decide,
    orderEvent_status_derivation (sampleJob "0xorder1" "new-order") sampleDb
      123 "0xorder1" sampleOrder rfl (by decide) rfl (by decide)⟩

/-- C6: with a loaded order, a `cancel` trigger always emits exactly one
cancellation activity event keyed by side, whatever the order's status; a
`new-order`/`reprice` trigger emits exactly one creation activity event
keyed by side iff the order is fillable and approved, and none otherwise;
any other trigger kind emits no activity event. -/
theorem activity_emission_gating (job : OrderInfo)
    (db : String → Option Order) (nowTs : Int) (oid : String) (o : Order)
    (hid : job.id = some oid) (hdb : db oid = some o)
    (hts : o.tokenSetId ≠ "") :
    (job.trigger.kind = "cancel" →
      (processJob job db nowTs).activityEvents =
        [⟨match o.side with
          | .sell => .sellOrderCancelled
          | .buy => .buyOrderCancelled,
          mkActivityEventData job.trigger o job.trigger.blockHash nowTs⟩]) ∧
    ((job.trigger.kind = "new-order" ∨ job.trigger.kind = "reprice") →
      ((o.fillabilityStatus = .fillable ∧ o.approvalStatus = .approved) →
        (processJob job db nowTs).activityEvents =
          [⟨match o.side with
            | .sell => .newSellOrder
            | .buy => .newBuyOrder,
            mkActivityEventData job.trigger o none nowTs⟩]) ∧
      (¬ (o.fillabilityStatus = .fillable ∧ o.approvalStatus = .approved) →
        (processJob job db nowTs).activityEvents = [])) ∧
    (job.trigger.kind ≠ "cancel" → job.trigger.kind ≠ "new-order" →
      job.trigger.kind ≠ "reprice" →
      (processJob job db nowTs).activityEvents = []) := by
  have hact := processJob_activity job db nowTs oid o hid hdb hts
  rw [hact]
  refine ⟨?_, ?_, ?_⟩
  · intro hk
    cases hs : o.side <;> simp [activityEventFor, hk, hs]
  · intro hk
    have hnc : ¬ job.trigger.kind = "cancel" := by
      rcases hk with hk | hk <;> simp [hk]
    constructor
    · intro hactive
      cases hs : o.side <;>
        simp [activityEventFor, hnc, hk, hactive.1, hactive.2, hs]
    · intro hinactive
      simp only [activityEventFor, hnc, if_false]
      rw [if_neg]
      · rfl
      · intro hcond
        exact hinactive ⟨hcond.2.1, hcond.2.2⟩
  · intro h1 h2 h3
    simp [activityEventFor, h1, h2, h3]

/-- C6 witness: a cancel trigger on the sample sell order emits exactly the
sell-side cancellation activity event (and the other two gates hold). -/
theorem activity_emission_gating_witness :
    (sampleJob "0xorder1" "cancel").id = some "0xorder1" ∧
    sampleDb "0xorder1" = some sampleOrder ∧
    sampleOrder.tokenSetId ≠ "" ∧
    (((sampleJob "0xorder1" "cancel").trigger.kind = "cancel" →
      (processJob (sampleJob "0xorder1" "cancel") sampleDb 123).activityEvents =
        [⟨match sampleOrder.side with
          | .sell => .sellOrderCancelled
          | .buy => .buyOrderCancelled,
          mkActivityEventData (sampleJob "0xorder1" "cancel").trigger
            sampleOrder (sampleJob "0xorder1" "cancel").trigger.blockHash
            123⟩]) ∧
    (((sampleJob "0xorder1" "cancel").trigger.kind = "new-order" ∨
        (sampleJob "0xorder1" "cancel").trigger.kind = "reprice") →
      ((sampleOrder.fillabilityStatus = .fillable ∧
          sampleOrder.approvalStatus = .approved) →
        (processJob (sampleJob "0xorder1" "cancel") sampleDb
          123).activityEvents =
          [⟨match sampleOrder.side with
            | .sell => .newSellOrder
            | .buy => .newBuyOrder,
            mkActivityEventData (sampleJob "0xorder1" "cancel").trigger
              sampleOrder none 123⟩]) ∧
      (¬ (sampleOrder.fillabilityStatus = .fillable ∧
          sampleOrder.approvalStatus = .approved) →
        (processJob (sampleJob "0xorder1" "cancel") sampleDb
          123).activityEvents = [])) ∧
    ((sampleJob "0xorder1" "cancel").trigger.kind ≠ "cancel" →
      (sampleJob "0xorder1" "cancel").trigger.kind ≠ "new-order" →
      (sampleJob "0xorder1" "cancel").trigger.kind ≠ "reprice" →
      (processJob (sampleJob "0xorder1" "cancel") sampleDb
        123).activityEvents = [])) :=
  ⟨rfl, by decide, by decide,
    activity_emission_gating (sampleJob "0xorder1" "cancel") sampleDb 123
      "0xorder1" sampleOrder rfl (by decide) (by decide)⟩

/-- C7: a job carrying an order id whose row no longer exists is a pure
no-op — no cache recompute, no ledger row, no bid event, no activity or
websocket event, no latency log — and without an order id, a job missing
an explicit token-set id or side (or carrying an empty token-set id) is
likewise a no-op: only explicit tokenSetId+side inputs proceed without a
loaded order. -/
theorem order_not_found_noop (job : OrderInfo) (db : String → Option Order)
    (nowTs : Int) (oid : String)
    (hid : job.id = some oid) (hdb : db oid = none) :
    processJob job db nowTs = Effects.empty ∧
    (∀ job2, job2.id = none →
      (job2.side = none ∨ job2.tokenSetId = none ∨
        job2.tokenSetId = some "") →
      processJob job2 db nowTs = Effects.empty) :=
  ⟨processJob_order_missing job db nowTs oid hid hdb,
    fun job2 h2 h3 => processJob_no_inputs job2 db nowTs h2 h3⟩

/-- C7 witness: a job for the unknown order id `"0xmissing"` produces no
effects at all. -/
theorem order_not_found_noop_witness :
    (sampleJob "0xmissing" "new-order").id = some "0xmissing" ∧
    sampleDb "0xmissing" = none ∧
    (processJob (sampleJob "0xmissing" "new-order") sampleDb 123 =
        Effects.empty ∧
      (∀ job2, job2.id = none →
        (job2.side = none ∨ job2.tokenSetId = none ∨
          job2.tokenSetId = some "") →
        processJob job2 sampleDb 123 = Effects.empty)) :=
  ⟨rfl, by decide,
    order_not_found_noop (sampleJob "0xmissing" "new-order") sampleDb 123
      "0xmissing" rfl (by decide)⟩

/-- C8 counterexample: a loaded `new-order` sell order that carries a
validity window but whose validity start (2000) exceeds its storage
creation time (1000) logs *no* latency metric, although the claim asserts
one is logged for every such job. -/
theorem latency_not_always_logged :
    (sampleJob "0xorder2" "new-order").id = some "0xorder2" ∧
    lateStartDb "0xorder2" = some lateStartOrder ∧
    lateStartOrder.validBetween = some (.wellFormed 2000) ∧
    lateStartOrder.originatedAt = none ∧
    (processJob (sampleJob "0xorder2" "new-order") lateStartDb
      123).latencyLog = none := by
  refine ⟨rfl, by decide, by decide, rfl, ?_⟩
  decide

/-- C8 (amended): for a `new-order` trigger whose order was loaded and
carries a validity window, the latency metric — delta between the order's
validity start (its `originatedAt` when set) and its storage creation
time, keyed by the source id and the tokenSetId-prefix order-type
classification — is logged iff the window parses and that start does not
exceed the creation time; a malformed window (swallowed parse failure) or
a future-dated start logs nothing, and the rest of the job is
unaffected. -/
theorem latency_metric_gated (job : OrderInfo) (db : String → Option Order)
    (nowTs : Int) (oid : String) (o : Order) (vb : ValidBetweenRaw)
    (hid : job.id = some oid) (hdb : db oid = some o)
    (hvb : o.validBetween = some vb)
    (hkind : job.trigger.kind = "new-order") :
    (processJob job db nowTs).latencyLog =
      latencyStep o (some o.side) (some o.tokenSetId) job.ingestMethod vb ∧
    (vb = .malformed → (processJob job db nowTs).latencyLog = none) ∧
    (∀ validFrom, parseValidFrom vb = some validFrom →
      (o.originatedAt.getD validFrom ≤ o.createdAt →
        (processJob job db nowTs).latencyLog = some
          { latency := o.createdAt - o.originatedAt.getD validFrom
            sourceIdInt := o.sourceIdInt
            orderId := o.id
            orderKind := o.kind
            orderType := orderTypeOf (some o.side) (some o.tokenSetId)
            ingestMethod := job.ingestMethod.getD "rest" }) ∧
      (o.createdAt < o.originatedAt.getD validFrom →
        (processJob job db nowTs).latencyLog = none)) ∧
    orderTypeOf (some .sell) (some o.tokenSetId) = .listing ∧
    (∀ ts : String, orderTypeOf (some .buy) (some ts) =
      if ts.startsWith "token" then .tokenOffer
      else if ts.startsWith "list" then .attributeOffer
      else .collectionOffer) := by
  have hlog := processJob_latencyLog job db nowTs oid o hid hdb
  rw [hvb] at hlog
  simp only [hkind, if_true] at hlog
  refine ⟨hlog, ?_, ?_, ?_, ?_⟩
  · intro hmal
    rw [hlog, hmal]
    rfl
  · intro validFrom hparse
    constructor
    · intro hle
      rw [hlog]
      unfold latencyStep
      rw [hparse]
      simp [hle]
    · intro hgt
      rw [hlog]
      unfold latencyStep
      rw [hparse]
      simp only []
      rw [if_neg (by omega)]
  · rfl
  · intro ts
    simp [orderTypeOf]

/-- C8 witness: the sample new-order job (valid from 100, created at 200)
logs latency 100 classified as a listing. -/
theorem latency_metric_gated_witness :
    (sampleJob "0xorder1" "new-order").id = some "0xorder1" ∧
    sampleDb "0xorder1" = some sampleOrder ∧
    sampleOrder.validBetween = some (.wellFormed 100) ∧
    (sampleJob "0xorder1" "new-order").trigger.kind = "new-order" ∧
    ((processJob (sampleJob "0xorder1" "new-order") sampleDb
        123).latencyLog =
      latencyStep sampleOrder (some sampleOrder.side)
        (some sampleOrder.tokenSetId)
        (sampleJob "0xorder1" "new-order").ingestMethod
        (.wellFormed 100)) :=
  ⟨rfl, by decide, by decide, rfl,
    (latency_metric_gated (sampleJob "0xorder1" "new-order") sampleDb 123
      "0xorder1" sampleOrder (.wellFormed 100) rfl (by decide) (by decide)
      rfl).1⟩

/-! ## Queue-dedup lemmas and C1 -/

theorem mem_enqueueDedup {j' j : QueuedJob} {q : List QueuedJob}
    (h : j' ∈ enqueueDedup j q) : j' ∈ q ∨ j' = j := by
  unfold enqueueDedup at h
  split at h
  · exact Or.inl h
  · rcases List.mem_append.mp h with h | h
    · exact Or.inl h
    · exact Or.inr (List.mem_singleton.mp h)

theorem jobId_mem_enqueueDedup_of_mem {x : String} {q : List QueuedJob}
    (j : QueuedJob) (h : x ∈ q.map (fun j0 => j0.jobId)) :
    x ∈ (enqueueDedup j q).map (fun j0 => j0.jobId) := by
  unfold enqueueDedup
  split
  · exact h
  · simp only [List.map_append, List.mem_append]
    exact Or.inl h

theorem jobId_mem_enqueueDedup_self (j : QueuedJob) (q : List QueuedJob) :
    j.jobId ∈ (enqueueDedup j q).map (fun j0 => j0.jobId) := by
  unfold enqueueDedup
  split
  · rename_i h
    rw [List.any_eq_true] at h
    obtain ⟨j0, hj0, he⟩ := h
    rw [decide_eq_true_eq] at he
    exact List.mem_map.mpr ⟨j0, hj0, he⟩
  · simp

theorem nodup_enqueueDedup (j : QueuedJob) (q : List QueuedJob)
    (h : (q.map (fun j0 => j0.jobId)).Nodup) :
    ((enqueueDedup j q).map (fun j0 => j0.jobId)).Nodup := by
  unfold enqueueDedup
  split
  · exact h
  · rename_i hany
    have hnot : ∀ j0 ∈ q, ¬ j0.jobId = j.jobId := by
      intro j0 hj0 he
      exact hany (List.any_eq_true.mpr ⟨j0, hj0, decide_eq_true he⟩)
    simp only [List.map_append, List.map_cons, List.map_nil]
    rw [List.nodup_append]
    refine ⟨h, List.nodup_singleton _, ?_⟩
    intro x hx hx1
    rw [List.mem_singleton] at hx1
    obtain ⟨j0, hj0, he⟩ := List.mem_map.mp hx
    exact hnot j0 hj0 (he.trans hx1)

theorem mem_addBulk {j' : QueuedJob} (js q : List QueuedJob)
    (h : j' ∈ addBulk js q) : j' ∈ q ∨ j' ∈ js := by
  induction js generalizing q with
  | nil => exact Or.inl h
  | cons j js ih =>
    rcases ih (enqueueDedup j q) h with h1 | h1
    · rcases mem_enqueueDedup h1 with h2 | h2
      · exact Or.inl h2
      · exact Or.inr (h2 ▸ List.mem_cons_self _ _)
    · exact Or.inr (List.mem_cons_of_mem _ h1)

theorem nodup_addBulk (js q : List QueuedJob)
    (h : (q.map (fun j0 => j0.jobId)).Nodup) :
    ((addBulk js q).map (fun j0 => j0.jobId)).Nodup := by
  induction js generalizing q with
  | nil => exact h
  | cons j js ih => exact ih (enqueueDedup j q) (nodup_enqueueDedup j q h)

theorem jobId_mem_addBulk_of_mem {x : String} (js q : List QueuedJob)
    (h : x ∈ q.map (fun j0 => j0.jobId)) :
    x ∈ (addBulk js q).map (fun j0 => j0.jobId) := by
  induction js generalizing q with
  | nil => exact h
  | cons j js ih =>
    exact ih (enqueueDedup j q) (jobId_mem_enqueueDedup_of_mem j h)

theorem jobId_mem_addBulk_self {a : QueuedJob} (js q : List QueuedJob)
    (ha : a ∈ js) :
    a.jobId ∈ (addBulk js q).map (fun j0 => j0.jobId) := by
  induction js generalizing q with
  | nil => cases ha
  | cons j js ih =>
    rcases List.mem_cons.mp ha with h | h
    · subst h
      exact jobId_mem_addBulk_of_mem js (enqueueDedup a q)
        (jobId_mem_enqueueDedup_self a q)
    · exact ih (enqueueDedup j q) h

theorem countP_jobId_le_one (q : List QueuedJob)
    (h : (q.map (fun j0 => j0.jobId)).Nodup) (c : String) :
    q.countP (fun j0 => j0.jobId == c) ≤ 1 := by
  induction q with
  | nil => simp
  | cons j q ih =>
    simp only [List.map_cons, List.nodup_cons] at h
    obtain ⟨hnotin, hnd⟩ := h
    rw [List.countP_cons]
    by_cases he : j.jobId = c
    · have hzero : q.countP (fun j0 => j0.jobId == c) = 0 := by
        rw [List.countP_eq_zero]
        intro j0 hj0 hj0c
        rw [beq_iff_eq] at hj0c
        exact hnotin (List.mem_map.mpr ⟨j0, hj0, hj0c.trans he.symm⟩)
      simp [hzero, he]
    · simp only [he, beq_iff_eq, if_neg he]
      simpa using ih hnd

/-- C1: `addToQueue` drops the order infos whose id is the all-zero
sentinel and enqueues every remaining entry under its trigger context as
the job identity; against a queue with pairwise-distinct job ids, the
result again has pairwise-distinct job ids, every new job comes from a
non-sentinel entry, every non-sentinel entry's context is held by some
queued job, and each context is held by at most one job — so a context
submitted N times yields at most one executed unit of work while the
queue retains the prior job with that context. -/
theorem addToQueue_context_idempotent (orderInfos : List OrderInfo)
    (q : List QueuedJob)
    (hq : (q.map (fun j0 => j0.jobId)).Nodup) :
    ((addToQueue orderInfos q).map (fun j0 => j0.jobId)).Nodup ∧
    (∀ j ∈ addToQueue orderInfos q, j ∈ q ∨
      ∃ oi ∈ orderInfos, oi.id ≠ some HashZero ∧ j = mkQueuedJob oi) ∧
    (∀ oi ∈ orderInfos, oi.id ≠ some HashZero →
      oi.context ∈ (addToQueue orderInfos q).map (fun j0 => j0.jobId)) ∧
    (∀ oi : OrderInfo, (mkQueuedJob oi).jobId = oi.context) ∧
    (∀ c, (addToQueue orderInfos q).countP (fun j0 => j0.jobId == c) ≤ 1) := by
  refine ⟨nodup_addBulk _ q hq, ?_, ?_, fun _ => rfl, ?_⟩
  · intro j hj
    rcases mem_addBulk _ q hj with h | h
    · exact Or.inl h
    · obtain ⟨oi, hoi, hmk⟩ := List.mem_map.mp h
      obtain ⟨hin, hpred⟩ := List.mem_filter.mp hoi
      rw [decide_eq_true_eq] at hpred
      exact Or.inr ⟨oi, hin, hpred, hmk.symm⟩
  · intro oi hin hsent
    have hfil : oi ∈ orderInfos.filter (fun oi0 => oi0.id ≠ some HashZero) :=
      List.mem_filter.mpr ⟨hin, decide_eq_true hsent⟩
    have hmk : mkQueuedJob oi ∈
        (orderInfos.filter (fun oi0 => oi0.id ≠ some HashZero)).map
          mkQueuedJob :=
      List.mem_map.mpr ⟨oi, hfil, rfl⟩
    exact jobId_mem_addBulk_self _ q hmk
  · intro c
    exact countP_jobId_le_one _ (nodup_addBulk _ q hq) c

/-- C1 witness: two submissions of context `"c1"` plus a sentinel-id entry
into an empty queue — ids stay unique, sentinel entries enqueue nothing,
context `"c1"` is held, and every context is held at most once. -/
theorem addToQueue_context_idempotent_witness :
    ((([] : List QueuedJob)).map (fun j0 => j0.jobId)).Nodup ∧
    (((addToQueue [dupContextInfo1, dupContextInfo2, sentinelInfo] []).map
        (fun j0 => j0.jobId)).Nodup ∧
      (∀ j ∈ addToQueue [dupContextInfo1, dupContextInfo2, sentinelInfo] [],
        j ∈ ([] : List QueuedJob) ∨
        ∃ oi ∈ [dupContextInfo1, dupContextInfo2, sentinelInfo],
          oi.id ≠ some HashZero ∧ j = mkQueuedJob oi) ∧
      (∀ oi ∈ [dupContextInfo1, dupContextInfo2, sentinelInfo],
        oi.id ≠ some HashZero →
        oi.context ∈ (addToQueue [dupContextInfo1, dupContextInfo2,
          sentinelInfo] []).map (fun j0 => j0.jobId)) ∧
      (∀ oi : OrderInfo, (mkQueuedJob oi).jobId = oi.context) ∧
      (∀ c, (addToQueue [dupContextInfo1, dupContextInfo2,
        sentinelInfo] []).countP (fun j0 => j0.jobId == c) ≤ 1)) :=
  ⟨List.nodup_nil,
    addToQueue_context_idempotent [dupContextInfo1, dupContextInfo2,
      sentinelInfo] [] List.nodup_nil⟩

end Indexer
